import Mathlib

/-
Verification of the Game of Life grid engine (`src/lib.rs`).

The Rust code is shallowly embedded: `Vec<Cell>` becomes `List Cell`,
`usize` becomes `Nat`, the `i32` wraparound arithmetic of
`alive_neighbor_count` becomes `Int` arithmetic with `Int.emod`
(Rust's `rem_euclid`), and every indexing operation that can panic
(`Vec` storage rejecting an out-of-range access) returns `Option`,
with `none` modelling the fatal fault.
-/

/-- A cell of the grid: `Dead` or `Alive` (`enum Cell` in the source). -/
inductive Cell where
  | Dead : Cell
  | Alive : Cell
deriving DecidableEq, Repr

/-- Coordinates, stored as a (row, column) pair (`struct Coord`). -/
structure Coord where
  row : Nat
  col : Nat
deriving DecidableEq, Repr

/-- The universe: flattened grid of cells, a back buffer, and the
dimensions (`struct Universe`). -/
structure Universe where
  cells : List Cell
  back_buffer : List Cell
  height : Nat
  width : Nat
deriving DecidableEq, Repr

/-- `Coord::new(y, x)`. -/
def Coord.new (y x : Nat) : Coord := Coord.mk y x

/-- `Cell::is_alive`: `*self == Cell::Alive`. -/
def Cell.is_alive (c : Cell) : Bool :=
  match c with
  | Cell.Alive => true
  | Cell.Dead => false

/-- `impl Not for Cell`: swaps `Dead` and `Alive`. -/
def Cell.not (c : Cell) : Cell :=
  match c with
  | Cell.Dead => Cell.Alive
  | Cell.Alive => Cell.Dead

/-- `Universe::new(height, width)`: a `width*height` buffer of `Dead`
cells and an identical back buffer. -/
def Universe.new (height width : Nat) : Universe :=
  Universe.mk (List.replicate (width * height) Cell.Dead)
    (List.replicate (width * height) Cell.Dead) height width

/-- `Universe::coord_to_idx`: `c.col + self.width * c.row`. -/
def Universe.coord_to_idx (u : Universe) (c : Coord) : Nat :=
  c.col + u.width * c.row

/-- `Universe::idx_to_coords`: `row = i / width`, `col = i % width`. -/
def Universe.idx_to_coords (u : Universe) (i : Nat) : Coord :=
  Coord.mk (i / u.width) (i % u.width)

/-- `Index<usize> for Universe`: `&self.cells[index]`; `none` models the
fatal out-of-range fault of the vector access. -/
def Universe.index? (u : Universe) (i : Nat) : Option Cell := u.cells[i]?

/-- `Index<Coord> for Universe`: `&self.cells[self.coord_to_idx(index)]`. -/
def Universe.indexCoord? (u : Universe) (c : Coord) : Option Cell :=
  u.index? (u.coord_to_idx c)

/-- `Universe::is_alive`: `self[c].is_alive()`. -/
def Universe.is_alive? (u : Universe) (c : Coord) : Option Bool :=
  (u.indexCoord? c).map Cell.is_alive

/-- `Universe::set_pixel`: `self[c] = val` through `IndexMut<Coord>`;
faults when the flat index is out of range. -/
def Universe.set_pixel? (u : Universe) (c : Coord) (val : Cell) : Option Universe :=
  if u.coord_to_idx c < u.cells.length then
    some (Universe.mk (u.cells.set (u.coord_to_idx c) val) u.back_buffer u.height u.width)
  else none

/-- `Universe::toggle_pixel`: `self[c] = !self[c]` (the read happens first
and faults when out of range; the write then hits the same index). -/
def Universe.toggle_pixel? (u : Universe) (c : Coord) : Option Universe :=
  (u.indexCoord? c).map (fun cell =>
    Universe.mk (u.cells.set (u.coord_to_idx c) cell.not) u.back_buffer u.height u.width)

/-- One toroidal wraparound step:
`(a as i32 + d).rem_euclid(n as i32) as usize`. -/
def wrap1 (n : Nat) (a : Nat) (d : Int) : Nat :=
  (((a : Int) + d) % (n : Int)).toNat

/-- The wrapped neighbor coordinate `Coord::new(new_y, new_x)` for an
offset `(dy, dx)`. -/
def Universe.wrapCoord (u : Universe) (c : Coord) (d : Int × Int) : Coord :=
  Coord.mk (wrap1 u.height c.row d.1) (wrap1 u.width c.col d.2)

/-- `Universe::alive_neighbor_count`: the double loop over
`dy in [-1,0,1]`, `dx in [-1,0,1]`, skipping `(0,0)`, reading the cell at
the wrapped coordinate (a fallible access). -/
def Universe.alive_neighbor_count (u : Universe) (c : Coord) : Option Nat :=
  ([-1, 0, 1] : List Int).foldlM (fun cnt dy =>
    ([-1, 0, 1] : List Int).foldlM (fun cnt dx =>
      if dx = 0 ∧ dy = 0 then some cnt
      else (u.indexCoord? (u.wrapCoord c (dy, dx))).map
        (fun cell => if cell.is_alive then cnt + 1 else cnt)) cnt) 0

/-- The rule table of the `match` inside `Universe::tick`, arm by arm. -/
def lifeRule (cur : Cell) (n : Nat) : Cell :=
  if cur = Cell.Alive ∧ n < 2 then Cell.Dead
  else if (cur = Cell.Alive ∧ n = 2) ∨ (cur = Cell.Alive ∧ n = 3) then Cell.Alive
  else if cur = Cell.Alive ∧ 3 < n then Cell.Dead
  else if cur = Cell.Dead ∧ n = 3 then Cell.Alive
  else cur

/-- One cell of the next generation: read `self[c]`, count neighbors,
apply the rule table (both reads are from the live `cells` buffer). -/
def Universe.tickCell? (u : Universe) (c : Coord) : Option Cell :=
  (u.indexCoord? c).bind (fun cur =>
    (u.alive_neighbor_count c).map (fun n => lifeRule cur n))

/-- Row-major traversal order of the double loop `for y ... for x ...`. -/
def coordList (h w : Nat) : List Coord :=
  (List.range h).flatMap (fun y => (List.range w).map (fun x => Coord.mk y x))

/-- A sequence of writes `buf[f c] = g c`: the value is computed first
(it may fault), then the store faults when `f c` is out of range. -/
def writeFold (g : Coord → Option Cell) (f : Coord → Nat)
    (cs : List Coord) (buf : List Cell) : Option (List Cell) :=
  cs.foldlM (fun buf c =>
    (g c).bind (fun v => if f c < buf.length then some (buf.set (f c) v) else none)) buf

/-- `Universe::tick`: fill the back buffer with the next generation
(reading only from `cells`), then swap the two buffers. -/
def Universe.tick? (u : Universe) : Option Universe :=
  (writeFold (fun c => u.tickCell? c) (fun c => u.coord_to_idx c)
      (coordList u.height u.width) u.back_buffer).map
    (fun bb => Universe.mk bb u.cells u.height u.width)

/-- `Universe::set_dimensions`: fresh all-`Dead` buffers of the new shape,
then copy the old cells over the overlap region (reads from the old grid,
writes through `IndexMut<Coord>` of the new grid, which touches only
`cells`, never `back_buffer`). -/
def Universe.set_dimensions? (u : Universe) (new_dims : Coord) : Option Universe :=
  (writeFold (fun c => u.indexCoord? c)
      (fun c => c.col + new_dims.col * c.row)
      (coordList (min u.height new_dims.row) (min u.width new_dims.col))
      (List.replicate (new_dims.row * new_dims.col) Cell.Dead)).map
    (fun cells => Universe.mk cells (List.replicate (new_dims.row * new_dims.col) Cell.Dead)
      new_dims.row new_dims.col)

/-- The documented shape invariant of a universe. -/
def Universe.Wf (u : Universe) : Prop :=
  u.cells.length = u.height * u.width ∧ u.back_buffer.length = u.cells.length

/-- The 8 neighbor offsets `(dy, dx)` of the spec:
`{-1,0,1}^2` minus `(0,0)`. -/
def specOffsets : List (Int × Int) :=
  [(-1,-1),(-1,0),(-1,1),(0,-1),(0,1),(1,-1),(1,0),(1,1)]

/-- Spec-side neighbor count: the number of the 8 offsets whose wrapped
coordinate holds an `Alive` cell. -/
def specNeighborCount (u : Universe) (c : Coord) : Nat :=
  specOffsets.countP (fun d => decide (u.indexCoord? (u.wrapCoord c d) = some Cell.Alive))

/-- A concrete 5×5 fixture holding the horizontal blinker
`(2,1),(2,2),(2,3)` (flat indices 11, 12, 13). -/
def blinker5 : Universe :=
  Universe.mk ((List.range 25).map
      (fun i => if i = 11 ∨ i = 12 ∨ i = 13 then Cell.Alive else Cell.Dead))
    (List.replicate 25 Cell.Dead) 5 5

/-! ### Arithmetic of the flat-index mapping -/

theorem flatIdx_lt {r c H W : Nat} (hr : r < H) (hc : c < W) : c + W * r < H * W := by
  calc c + W * r < W + W * r := by omega
    _ = W * (r + 1) := by ring
    _ ≤ W * H := Nat.mul_le_mul_left W hr
    _ = H * W := Nat.mul_comm W H

theorem flatIdx_inj {W : Nat} {c c' : Coord} (hc : c.col < W) (hc' : c'.col < W)
    (h : c.col + W * c.row = c'.col + W * c'.row) : c = c' := by
  have hW : 0 < W := Nat.lt_of_le_of_lt (Nat.zero_le _) hc
  have hrow : c.row = c'.row := by
    have e1 : (c.col + W * c.row) / W = c.row := by
      rw [Nat.add_mul_div_left _ _ hW, Nat.div_eq_of_lt hc, Nat.zero_add]
    have e2 : (c'.col + W * c'.row) / W = c'.row := by
      rw [Nat.add_mul_div_left _ _ hW, Nat.div_eq_of_lt hc', Nat.zero_add]
    rw [← e1, ← e2, h]
  have hcol : c.col = c'.col := by rw [hrow] at h; omega
  cases c; cases c'
  simp_all

/-! ### The traversal order of the double loops -/

theorem mem_coordList {h w : Nat} {c : Coord} :
    c ∈ coordList h w ↔ c.row < h ∧ c.col < w := by
  unfold coordList
  simp only [List.mem_flatMap, List.mem_map, List.mem_range]
  constructor
  · rintro ⟨y, hy, x, hx, rfl⟩
    exact ⟨hy, hx⟩
  · rintro ⟨h1, h2⟩
    exact ⟨c.row, h1, c.col, h2, by cases c; rfl⟩

theorem coordList_pairwise (h w W : Nat) (hwW : w ≤ W) :
    (coordList h w).Pairwise (fun c c' => c.col + W * c.row ≠ c'.col + W * c'.row) := by
  induction h with
  | zero => simp [coordList]
  | succ n ih =>
    have hsplit : coordList (n + 1) w
        = coordList n w ++ (List.range w).map (fun x => Coord.mk n x) := by
      unfold coordList
      rw [List.range_succ, List.flatMap_append]
      simp
    rw [hsplit]
    refine List.pairwise_append.mpr ⟨ih, ?_, ?_⟩
    · refine List.pairwise_map.mpr ?_
      exact (List.pairwise_lt_range w).imp (by intro a b hab; simp; omega)
    · intro c hc c' hc'
      obtain ⟨hr, hcol⟩ := mem_coordList.mp hc
      obtain ⟨x, hx, rfl⟩ := List.mem_map.mp hc'
      have h1 : c.col + W * c.row < W * n := by
        calc c.col + W * c.row < W + W * c.row := by omega
          _ = W * (c.row + 1) := by ring
          _ ≤ W * n := Nat.mul_le_mul_left W hr
      have h2 : W * n ≤ x + W * n := Nat.le_add_left _ _
      simp only []
      omega

/-! ### The write loop shared by `tick` and `set_dimensions` -/

theorem writeFold_eq (g : Coord → Option Cell) (f : Coord → Nat) :
    ∀ (cs : List Coord) (buf : List Cell),
      (∀ c ∈ cs, (g c).isSome) →
      (∀ c ∈ cs, f c < buf.length) →
      cs.Pairwise (fun c c' => f c ≠ f c') →
      ∃ buf', writeFold g f cs buf = some buf' ∧
        buf'.length = buf.length ∧
        (∀ c ∈ cs, buf'[f c]? = g c) ∧
        (∀ j, (∀ c ∈ cs, f c ≠ j) → buf'[j]? = buf[j]?) := by
  intro cs
  induction cs with
  | nil =>
    intro buf _ _ _
    exact ⟨buf, rfl, rfl, by simp, fun j _ => rfl⟩
  | cons a l ih =>
    intro buf hsome hlt hpw
    obtain ⟨v, hv⟩ := Option.isSome_iff_exists.mp (hsome a (List.mem_cons_self a l))
    have hfa : f a < buf.length := hlt a (List.mem_cons_self a l)
    have step : writeFold g f (a :: l) buf = writeFold g f l (buf.set (f a) v) := by
      simp [writeFold, List.foldlM_cons, hv, hfa]
    obtain ⟨hhead, htail⟩ := List.pairwise_cons.mp hpw
    obtain ⟨buf', h1, h2, h3, h4⟩ := ih (buf.set (f a) v)
      (fun c hc => hsome c (List.mem_cons_of_mem _ hc))
      (fun c hc => by rw [List.length_set]; exact hlt c (List.mem_cons_of_mem _ hc))
      htail
    refine ⟨buf', by rw [step]; exact h1, by rw [h2, List.length_set], ?_, ?_⟩
    · intro c hc
      rcases List.mem_cons.mp hc with rfl | hc'
      · rw [h4 (f c) (fun c' hc' => (hhead c' hc').symm), List.getElem?_set_self hfa, hv]
      · exact h3 c hc'
    · intro j hj
      rw [h4 j (fun c hc => hj c (List.mem_cons_of_mem _ hc)),
        List.getElem?_set_ne (hj a (List.mem_cons_self a l))]

/-! ### Wraparound arithmetic and in-range access -/

theorem wrap1_lt (n a : Nat) (d : Int) (hn : 0 < n) : wrap1 n a d < n := by
  unfold wrap1
  have h0 : (0 : Int) < (n : Int) := by exact_mod_cast hn
  have h1 : 0 ≤ ((a : Int) + d) % (n : Int) := Int.emod_nonneg _ (by omega)
  have h2 : ((a : Int) + d) % (n : Int) < (n : Int) := Int.emod_lt_of_pos _ h0
  omega

theorem indexCoord?_isSome (u : Universe) (hu : u.Wf) (c : Coord)
    (hr : c.row < u.height) (hc : c.col < u.width) :
    ∃ cell, u.indexCoord? c = some cell := by
  have hidx : u.coord_to_idx c < u.cells.length := by
    rw [hu.1]
    exact flatIdx_lt hr hc
  exact ⟨_, List.getElem?_eq_getElem hidx⟩

theorem wrapCoord_isSome (u : Universe) (hu : u.Wf) (hh : 0 < u.height) (hw : 0 < u.width)
    (c : Coord) (d : Int × Int) : (u.indexCoord? (u.wrapCoord c d)).isSome := by
  have h1 : (u.wrapCoord c d).row < u.height := wrap1_lt _ _ _ hh
  have h2 : (u.wrapCoord c d).col < u.width := wrap1_lt _ _ _ hw
  obtain ⟨cell, hc⟩ := indexCoord?_isSome u hu _ h1 h2
  simp [hc]

/-! ### The neighbor-counting fold -/

theorem foldlM_count_skip (u : Universe) (P : Int → Prop) [DecidablePred P] (q : Int → Coord) :
    ∀ (l : List Int), (∀ dx ∈ l, ¬ P dx → (u.indexCoord? (q dx)).isSome) →
    ∀ n : Nat,
      l.foldlM (fun cnt dx => if P dx then some cnt
        else (u.indexCoord? (q dx)).map (fun cell => if cell.is_alive then cnt + 1 else cnt)) n
      = some (n + l.countP (fun dx =>
          !(decide (P dx)) && decide (u.indexCoord? (q dx) = some Cell.Alive))) := by
  intro l
  induction l with
  | nil => intro _ n; simp
  | cons a l ih =>
    intro hs n
    rw [List.foldlM_cons]
    by_cases hP : P a
    · rw [if_pos hP]
      show l.foldlM _ n = _
      rw [ih (fun dx hdx => hs dx (List.mem_cons_of_mem _ hdx)) n]
      simp [List.countP_cons, hP]
    · obtain ⟨cell, hcell⟩ := Option.isSome_iff_exists.mp (hs a (List.mem_cons_self a l) hP)
      rw [if_neg hP, hcell]
      show l.foldlM _ (if cell.is_alive then n + 1 else n) = _
      rw [ih (fun dx hdx => hs dx (List.mem_cons_of_mem _ hdx)) _]
      cases cell <;> simp [List.countP_cons, hP, hcell, Cell.is_alive] <;> omega

theorem anc_eq (u : Universe) (hu : u.Wf) (hh : 0 < u.height) (hw : 0 < u.width) (c : Coord) :
    u.alive_neighbor_count c = some (specNeighborCount u c) := by
  have hsome : ∀ d : Int × Int, (u.indexCoord? (u.wrapCoord c d)).isSome :=
    fun d => wrapCoord_isSome u hu hh hw c d
  have inner : ∀ (dy : Int) (n : Nat),
      ([-1, 0, 1] : List Int).foldlM (fun cnt dx => if dx = 0 ∧ dy = 0 then some cnt
        else (u.indexCoord? (u.wrapCoord c (dy, dx))).map
          (fun cell => if cell.is_alive then cnt + 1 else cnt)) n
      = some (n + ([-1, 0, 1] : List Int).countP (fun dx =>
          !(decide (dx = 0 ∧ dy = 0))
            && decide (u.indexCoord? (u.wrapCoord c (dy, dx)) = some Cell.Alive))) :=
    fun dy n => foldlM_count_skip u (fun dx => dx = 0 ∧ dy = 0)
      (fun dx => u.wrapCoord c (dy, dx)) _ (fun dx _ _ => hsome (dy, dx)) n
  unfold Universe.alive_neighbor_count
  rw [List.foldlM_cons]
  rw [inner (-1) 0]
  rw [Option.bind_eq_bind, Option.some_bind]
  rw [List.foldlM_cons]
  rw [inner 0 _]
  rw [Option.bind_eq_bind, Option.some_bind]
  rw [List.foldlM_cons]
  rw [inner 1 _]
  rw [Option.bind_eq_bind, Option.some_bind]
  rw [List.foldlM_nil]
  unfold specNeighborCount specOffsets
  simp only [List.countP_cons, List.countP_nil]
  norm_num [Universe.wrapCoord]
  ring

/-! ### Structure of one generation advance -/

theorem tickCell?_eq (u : Universe) (hu : u.Wf) {c : Coord} {cur : Cell}
    (hr : c.row < u.height) (hc : c.col < u.width)
    (hcur : u.indexCoord? c = some cur) :
    u.tickCell? c = some (lifeRule cur (specNeighborCount u c)) := by
  have hh : 0 < u.height := Nat.lt_of_le_of_lt (Nat.zero_le _) hr
  have hw : 0 < u.width := Nat.lt_of_le_of_lt (Nat.zero_le _) hc
  unfold Universe.tickCell?
  rw [hcur, anc_eq u hu hh hw c]
  rfl

theorem tick?_spec (u : Universe) (hu : u.Wf) :
    ∃ u', u.tick? = some u' ∧ u'.height = u.height ∧ u'.width = u.width ∧
      u'.back_buffer = u.cells ∧ u'.cells.length = u.back_buffer.length ∧
      (∀ c : Coord, c.row < u.height → c.col < u.width →
        u'.indexCoord? c = u.tickCell? c) := by
  obtain ⟨buf', h1, h2, h3, h4⟩ := writeFold_eq (fun c => u.tickCell? c)
    (fun c => u.coord_to_idx c) (coordList u.height u.width) u.back_buffer
    (by
      intro c hc
      obtain ⟨hr, hcol⟩ := mem_coordList.mp hc
      obtain ⟨cur, hcur⟩ := indexCoord?_isSome u hu c hr hcol
      show (u.tickCell? c).isSome = true
      rw [tickCell?_eq u hu hr hcol hcur]
      rfl)
    (by
      intro c hc
      obtain ⟨hr, hcol⟩ := mem_coordList.mp hc
      rw [hu.2, hu.1]
      exact flatIdx_lt hr hcol)
    (coordList_pairwise u.height u.width u.width (le_refl _))
  refine ⟨Universe.mk buf' u.cells u.height u.width, ?_, rfl, rfl, rfl, h2, ?_⟩
  · unfold Universe.tick?
    rw [h1]
    rfl
  · intro c hr hc
    have hmem : c ∈ coordList u.height u.width := mem_coordList.mpr ⟨hr, hc⟩
    exact h3 c hmem

theorem tick?_wf (u : Universe) (hu : u.Wf) {u' : Universe} (h : u.tick? = some u') :
    u'.Wf := by
  obtain ⟨u'', h1, h2, h3, h4, h5, _⟩ := tick?_spec u hu
  rw [h1] at h
  cases h
  constructor
  · rw [h5, hu.2, hu.1, h2, h3]
  · rw [h4, h5, hu.2]

/-! ### Structure of a resize -/

theorem set_dimensions?_spec (u : Universe) (hu : u.Wf) (d : Coord) :
    ∃ u', u.set_dimensions? d = some u' ∧ u'.height = d.row ∧ u'.width = d.col ∧
      u'.back_buffer = List.replicate (d.row * d.col) Cell.Dead ∧
      u'.cells.length = d.row * d.col ∧
      (∀ c : Coord, c.row < min u.height d.row → c.col < min u.width d.col →
        u'.indexCoord? c = u.indexCoord? c) ∧
      (∀ c : Coord, c.row < d.row → c.col < d.col →
        ¬(c.row < u.height ∧ c.col < u.width) → u'.indexCoord? c = some Cell.Dead) := by
  obtain ⟨buf', h1, h2, h3, h4⟩ := writeFold_eq (fun c => u.indexCoord? c)
    (fun c => c.col + d.col * c.row)
    (coordList (min u.height d.row) (min u.width d.col))
    (List.replicate (d.row * d.col) Cell.Dead)
    (by
      intro c hc
      obtain ⟨hr, hcol⟩ := mem_coordList.mp hc
      obtain ⟨cur, hcur⟩ := indexCoord?_isSome u hu c
        (Nat.lt_of_lt_of_le hr (Nat.min_le_left _ _))
        (Nat.lt_of_lt_of_le hcol (Nat.min_le_left _ _))
      show (u.indexCoord? c).isSome = true
      rw [hcur]
      rfl)
    (by
      intro c hc
      obtain ⟨hr, hcol⟩ := mem_coordList.mp hc
      rw [List.length_replicate]
      exact flatIdx_lt (Nat.lt_of_lt_of_le hr (Nat.min_le_right _ _))
        (Nat.lt_of_lt_of_le hcol (Nat.min_le_right _ _)))
    (coordList_pairwise _ _ d.col (Nat.min_le_right _ _))
  refine ⟨Universe.mk buf' (List.replicate (d.row * d.col) Cell.Dead) d.row d.col,
    ?_, rfl, rfl, rfl, by rw [h2, List.length_replicate], ?_, ?_⟩
  · unfold Universe.set_dimensions?
    rw [h1]
    rfl
  · intro c hr hc
    exact h3 c (mem_coordList.mpr ⟨hr, hc⟩)
  · intro c hr hc hout
    have huntouched : ∀ c' ∈ coordList (min u.height d.row) (min u.width d.col),
        c'.col + d.col * c'.row ≠ c.col + d.col * c.row := by
      intro c' hc' heq
      obtain ⟨hr', hcol'⟩ := mem_coordList.mp hc'
      have : c' = c := flatIdx_inj (Nat.lt_of_lt_of_le hcol' (Nat.min_le_right _ _)) hc heq
      subst this
      exact hout ⟨Nat.lt_of_lt_of_le hr' (Nat.min_le_left _ _),
        Nat.lt_of_lt_of_le hcol' (Nat.min_le_left _ _)⟩
    have hread : (Universe.mk buf' (List.replicate (d.row * d.col) Cell.Dead) d.row d.col).indexCoord? c
        = buf'[c.col + d.col * c.row]? := rfl
    rw [hread, h4 _ huntouched, List.getElem?_replicate, if_pos (flatIdx_lt hr hc)]

/-! ### Small helper facts -/

theorem Cell.not_not (c : Cell) : c.not.not = c := by
  cases c <;> rfl

theorem lifeRule_cases (cur : Cell) (n : Nat) :
    lifeRule cur n = (if cur = Cell.Alive then
        (if n < 2 then Cell.Dead else if n = 2 ∨ n = 3 then Cell.Alive else Cell.Dead)
      else (if n = 3 then Cell.Alive else cur)) := by
  cases cur <;> unfold lifeRule <;> split_ifs <;> simp_all <;> omega

/-! ### Claims about the coordinate transforms and point mutation -/

/-- C3: for every grid with positive width, `coord_to_idx` and
`idx_to_coords` are mutually inverse over the range `[0, height*width)`
and the in-range coordinates, hence a bijection over that range. -/
theorem coord_index_roundtrip (u : Universe) (hw : 0 < u.width) :
    (∀ i, i < u.height * u.width → u.coord_to_idx (u.idx_to_coords i) = i) ∧
    (∀ c : Coord, c.row < u.height → c.col < u.width →
      u.idx_to_coords (u.coord_to_idx c) = c) := by
  constructor
  · intro i _
    show i % u.width + u.width * (i / u.width) = i
    exact Nat.mod_add_div i u.width
  · intro c hr hc
    have h1 : (c.col + u.width * c.row) / u.width = c.row := by
      rw [Nat.add_mul_div_left _ _ hw, Nat.div_eq_of_lt hc, Nat.zero_add]
    have h2 : (c.col + u.width * c.row) % u.width = c.col := by
      rw [Nat.add_mul_mod_self_left, Nat.mod_eq_of_lt hc]
    show Coord.mk ((c.col + u.width * c.row) / u.width) ((c.col + u.width * c.row) % u.width) = c
    rw [h1, h2]

theorem coord_index_roundtrip_witness :
    (Universe.new 2 3).coord_to_idx ((Universe.new 2 3).idx_to_coords 4) = 4 ∧
    (Universe.new 2 3).idx_to_coords ((Universe.new 2 3).coord_to_idx (Coord.mk 1 2))
      = Coord.mk 1 2 :=
  ⟨(coord_index_roundtrip (Universe.new 2 3) (by decide)).1 4 (by decide),
   (coord_index_roundtrip (Universe.new 2 3) (by decide)).2 (Coord.mk 1 2) (by decide) (by decide)⟩

/-- C8: toggling a valid cell twice restores the original value there,
and each single toggle stores the logical negation of the cell. -/
theorem toggle_pixel_involution (u : Universe) (hu : u.Wf) (c : Coord)
    (hr : c.row < u.height) (hc : c.col < u.width) :
    ∃ u1 u2, u.toggle_pixel? c = some u1 ∧ u1.toggle_pixel? c = some u2 ∧
      u1.indexCoord? c = (u.indexCoord? c).map Cell.not ∧
      u2.indexCoord? c = u.indexCoord? c := by
  obtain ⟨cell, hcell⟩ := indexCoord?_isSome u hu c hr hc
  have hidx : u.coord_to_idx c < u.cells.length := by
    rw [hu.1]
    exact flatIdx_lt hr hc
  have e1 : (Universe.mk (u.cells.set (u.coord_to_idx c) cell.not)
      u.back_buffer u.height u.width).indexCoord? c = some cell.not := by
    show (u.cells.set (u.coord_to_idx c) cell.not)[u.coord_to_idx c]? = some cell.not
    exact List.getElem?_set_self hidx
  refine ⟨Universe.mk (u.cells.set (u.coord_to_idx c) cell.not) u.back_buffer u.height u.width,
    Universe.mk ((u.cells.set (u.coord_to_idx c) cell.not).set (u.coord_to_idx c) cell.not.not)
      u.back_buffer u.height u.width, ?_, ?_, ?_, ?_⟩
  · unfold Universe.toggle_pixel?
    rw [hcell]
    rfl
  · unfold Universe.toggle_pixel?
    rw [e1]
    rfl
  · rw [e1, hcell]
    rfl
  · show ((u.cells.set (u.coord_to_idx c) cell.not).set
        (u.coord_to_idx c) cell.not.not)[u.coord_to_idx c]? = u.indexCoord? c
    rw [List.getElem?_set_self (by rw [List.length_set]; exact hidx), Cell.not_not, hcell]

theorem toggle_pixel_involution_witness :
    ∃ u1 u2, (Universe.new 1 1).toggle_pixel? (Coord.mk 0 0) = some u1 ∧
      u1.toggle_pixel? (Coord.mk 0 0) = some u2 ∧
      u1.indexCoord? (Coord.mk 0 0)
        = ((Universe.new 1 1).indexCoord? (Coord.mk 0 0)).map Cell.not ∧
      u2.indexCoord? (Coord.mk 0 0) = (Universe.new 1 1).indexCoord? (Coord.mk 0 0) :=
  toggle_pixel_involution (Universe.new 1 1) ⟨rfl, rfl⟩ (Coord.mk 0 0) (by decide) (by decide)

/-- C9: `cells.length == height * width` and
`back_buffer.length == cells.length` hold after construction and after
every completed operation. -/
theorem shape_invariant :
    (∀ h w, (Universe.new h w).Wf) ∧
    (∀ (u : Universe) c v u', u.Wf → u.set_pixel? c v = some u' → u'.Wf) ∧
    (∀ (u : Universe) c u', u.Wf → u.toggle_pixel? c = some u' → u'.Wf) ∧
    (∀ (u : Universe) u', u.Wf → u.tick? = some u' → u'.Wf) ∧
    (∀ (u : Universe) d u', u.Wf → u.set_dimensions? d = some u' → u'.Wf) := by
  refine ⟨?_, ?_, ?_, ?_, ?_⟩
  · intro h w
    constructor
    · show (List.replicate (w * h) Cell.Dead).length = h * w
      rw [List.length_replicate, Nat.mul_comm]
    · rfl
  · intro u c v u' hu h
    unfold Universe.set_pixel? at h
    split at h
    · cases h
      exact ⟨by rw [List.length_set]; exact hu.1, by rw [List.length_set]; exact hu.2⟩
    · cases h
  · intro u c u' hu h
    unfold Universe.toggle_pixel? at h
    obtain ⟨cell, hcell, rfl⟩ := Option.map_eq_some'.mp h
    exact ⟨by rw [List.length_set]; exact hu.1, by rw [List.length_set]; exact hu.2⟩
  · intro u u' hu h
    exact tick?_wf u hu h
  · intro u d u' hu h
    obtain ⟨u'', h1, h2, h3, h4, h5, _, _⟩ := set_dimensions?_spec u hu d
    rw [h1] at h
    cases h
    exact ⟨by rw [h5, h2, h3], by rw [h4, List.length_replicate, h5]⟩

theorem shape_invariant_witness : (Universe.mk [Cell.Dead] [Cell.Dead] 1 1).Wf :=
  shape_invariant.2.2.2.1 (Universe.new 1 1) (Universe.mk [Cell.Dead] [Cell.Dead] 1 1)
    ⟨rfl, rfl⟩ (by decide)

/-- C10: a coordinate whose column is out of range but whose flat index
`col + width * row` is still below `height * width` does not fault: the
access silently uses that flat index, aliasing the distinct in-range
coordinate `idx_to_coords (coord_to_idx c)`. -/
theorem oob_column_aliasing (u : Universe) (hu : u.Wf) (hh : 2 ≤ u.height) (hw : 1 ≤ u.width)
    (c : Coord) (hcol : u.width ≤ c.col) (hidx : c.col + u.width * c.row < u.height * u.width) :
    (∃ cell, u.indexCoord? c = some cell ∧ u.index? (c.col + u.width * c.row) = some cell) ∧
    (∀ v, u.set_pixel? c v
      = some (Universe.mk (u.cells.set (c.col + u.width * c.row) v)
          u.back_buffer u.height u.width)) ∧
    u.idx_to_coords (u.coord_to_idx c) ≠ c ∧
    (u.idx_to_coords (u.coord_to_idx c)).row < u.height ∧
    (u.idx_to_coords (u.coord_to_idx c)).col < u.width := by
  have hw0 : 0 < u.width := hw
  have hlen : u.coord_to_idx c < u.cells.length := by
    rw [hu.1]
    exact hidx
  refine ⟨⟨u.cells.get ⟨u.coord_to_idx c, hlen⟩, ?_, ?_⟩, ?_, ?_, ?_, ?_⟩
  · show u.cells[u.coord_to_idx c]? = _
    rw [List.getElem?_eq_getElem hlen]
    rfl
  · show u.cells[u.coord_to_idx c]? = _
    rw [List.getElem?_eq_getElem hlen]
    rfl
  · intro v
    unfold Universe.set_pixel?
    rw [if_pos hlen]
    rfl
  · intro heq
    have hcoleq : (u.idx_to_coords (u.coord_to_idx c)).col = c.col := by rw [heq]
    have : (c.col + u.width * c.row) % u.width = c.col := hcoleq
    rw [Nat.add_mul_mod_self_left] at this
    have := Nat.mod_lt c.col hw0
    omega
  · show (c.col + u.width * c.row) / u.width < u.height
    rw [Nat.div_lt_iff_lt_mul hw0]
    exact hidx
  · exact Nat.mod_lt _ hw0

theorem oob_column_aliasing_witness :
    (∃ cell, (Universe.new 2 2).indexCoord? (Coord.mk 0 3) = some cell ∧
      (Universe.new 2 2).index? (3 + (Universe.new 2 2).width * 0) = some cell) ∧
    (∀ v, (Universe.new 2 2).set_pixel? (Coord.mk 0 3) v
      = some (Universe.mk ((Universe.new 2 2).cells.set (3 + (Universe.new 2 2).width * 0) v)
          (Universe.new 2 2).back_buffer (Universe.new 2 2).height (Universe.new 2 2).width)) ∧
    (Universe.new 2 2).idx_to_coords ((Universe.new 2 2).coord_to_idx (Coord.mk 0 3))
      ≠ Coord.mk 0 3 ∧
    ((Universe.new 2 2).idx_to_coords ((Universe.new 2 2).coord_to_idx (Coord.mk 0 3))).row
      < (Universe.new 2 2).height ∧
    ((Universe.new 2 2).idx_to_coords ((Universe.new 2 2).coord_to_idx (Coord.mk 0 3))).col
      < (Universe.new 2 2).width :=
  oob_column_aliasing (Universe.new 2 2) ⟨rfl, rfl⟩ (by decide) (by decide)
    (Coord.mk 0 3) (by decide) (by decide)

/-- C6 is refuted as stated: on a 2×2 grid the coordinate `(0, 3)` has an
out-of-range column, yet `is_alive` does not fault (the access succeeds). -/
theorem oob_fault_counterexample :
    (Universe.new 2 2).width ≤ 3 ∧ (Universe.new 2 2).is_alive? (Coord.mk 0 3) ≠ none := by
  decide

/-- C6 (amended): a flat index `≥ height*width` faults; a coordinate
faults exactly when its flat index `coord_to_idx c` is `≥ height*width`
(so row overflow with positive width always faults, while column overflow
alone need not). -/
theorem oob_fault_characterization (u : Universe) (hu : u.Wf) :
    (∀ i, u.height * u.width ≤ i → u.index? i = none) ∧
    (∀ c : Coord, u.height * u.width ≤ u.coord_to_idx c →
      u.indexCoord? c = none ∧ u.is_alive? c = none ∧ u.toggle_pixel? c = none ∧
      ∀ v, u.set_pixel? c v = none) ∧
    (∀ c : Coord, 0 < u.width → u.height ≤ c.row →
      u.height * u.width ≤ u.coord_to_idx c) := by
  have hnone : ∀ i, u.height * u.width ≤ i → u.index? i = none := by
    intro i hi
    show u.cells[i]? = none
    rw [List.getElem?_eq_none]
    rw [hu.1]
    exact hi
  refine ⟨hnone, ?_, ?_⟩
  · intro c hc
    have h1 : u.indexCoord? c = none := hnone _ hc
    refine ⟨h1, ?_, ?_, ?_⟩
    · unfold Universe.is_alive?
      rw [h1]
      rfl
    · unfold Universe.toggle_pixel?
      rw [h1]
      rfl
    · intro v
      unfold Universe.set_pixel?
      rw [if_neg]
      rw [hu.1]
      omega
  · intro c hw hr
    have h1 : u.width * u.height ≤ u.width * c.row := Nat.mul_le_mul_left _ hr
    have h2 : u.height * u.width = u.width * u.height := Nat.mul_comm _ _
    unfold Universe.coord_to_idx
    omega

theorem oob_fault_characterization_witness :
    (Universe.new 2 2).index? 4 = none ∧
    (Universe.new 2 2).indexCoord? (Coord.mk 2 0) = none :=
  ⟨(oob_fault_characterization (Universe.new 2 2) ⟨rfl, rfl⟩).1 4 (by decide),
    ((oob_fault_characterization (Universe.new 2 2) ⟨rfl, rfl⟩).2.1 (Coord.mk 2 0)
      (by decide)).1⟩

/-- C5 is refuted as stated: after a completed `set_pixel` the back
buffer differs from `cells`. -/
theorem back_buffer_divergence_counterexample :
    (Universe.new 1 1).set_pixel? (Coord.mk 0 0) Cell.Alive
        = some (Universe.mk [Cell.Alive] [Cell.Dead] 1 1) ∧
    (Universe.mk [Cell.Alive] [Cell.Dead] 1 1).back_buffer
      ≠ (Universe.mk [Cell.Alive] [Cell.Dead] 1 1).cells := by
  decide

/-- C5 (amended): the back buffer equals `cells` after construction, but
`set_pixel` and `toggle_pixel` leave it untouched (so it can diverge from
`cells`), and `set_dimensions` resets it to all-`Dead`; only the shapes
stay in sync. -/
theorem back_buffer_behavior :
    (∀ h w, (Universe.new h w).back_buffer = (Universe.new h w).cells) ∧
    (∀ (u : Universe) c v u', u.set_pixel? c v = some u' →
      u'.back_buffer = u.back_buffer ∧ u'.cells.length = u.cells.length) ∧
    (∀ (u : Universe) c u', u.toggle_pixel? c = some u' →
      u'.back_buffer = u.back_buffer ∧ u'.cells.length = u.cells.length) ∧
    (∀ (u : Universe) d u', u.set_dimensions? d = some u' →
      u'.back_buffer = List.replicate (d.row * d.col) Cell.Dead) := by
  refine ⟨fun h w => rfl, ?_, ?_, ?_⟩
  · intro u c v u' h
    unfold Universe.set_pixel? at h
    split at h
    · cases h
      exact ⟨rfl, List.length_set _ _ _⟩
    · cases h
  · intro u c u' h
    obtain ⟨cell, hcell, rfl⟩ := Option.map_eq_some'.mp h
    exact ⟨rfl, List.length_set _ _ _⟩
  · intro u d u' h
    obtain ⟨bb, hbb, rfl⟩ := Option.map_eq_some'.mp h
    rfl

theorem back_buffer_behavior_witness :
    (Universe.mk [Cell.Alive] [Cell.Dead] 1 1).back_buffer
        = (Universe.new 1 1).back_buffer ∧
    (Universe.mk [Cell.Alive] [Cell.Dead] 1 1).cells.length
      = (Universe.new 1 1).cells.length :=
  back_buffer_behavior.2.1 (Universe.new 1 1) (Coord.mk 0 0) Cell.Alive
    (Universe.mk [Cell.Alive] [Cell.Dead] 1 1) (by decide)

/-- C2: for a well-formed grid with positive dimensions and an in-range
coordinate, `alive_neighbor_count` succeeds and equals the number of the
8 offsets of `{-1,0,1}^2` minus `(0,0)` whose Euclidean-wrapped
coordinate holds an `Alive` cell; the count is at most 8. -/
theorem alive_neighbor_count_spec (u : Universe) (hu : u.Wf)
    (hh : 0 < u.height) (hw : 0 < u.width) (c : Coord)
    (hr : c.row < u.height) (hc : c.col < u.width) :
    u.alive_neighbor_count c = some (specNeighborCount u c) ∧
    specNeighborCount u c ≤ 8 := by
  refine ⟨anc_eq u hu hh hw c, ?_⟩
  have hle : specNeighborCount u c ≤ specOffsets.length := List.countP_le_length _
  exact le_trans hle (by rfl)

theorem alive_neighbor_count_spec_witness :
    (Universe.new 3 3).alive_neighbor_count (Coord.mk 0 0)
        = some (specNeighborCount (Universe.new 3 3) (Coord.mk 0 0)) ∧
    specNeighborCount (Universe.new 3 3) (Coord.mk 0 0) ≤ 8 :=
  alive_neighbor_count_spec (Universe.new 3 3) ⟨rfl, rfl⟩ (by decide) (by decide)
    (Coord.mk 0 0) (by decide) (by decide)

/-- C1: after `tick`, the cell at an in-range coordinate equals the rule
table applied to the pre-tick state and the pre-tick toroidal neighbor
count: Alive with fewer than 2 dies, with 2 or 3 survives, with more
than 3 dies; Dead with exactly 3 is born; anything else is unchanged. -/
theorem tick_rule_table (u : Universe) (hu : u.Wf)
    (hh : 0 < u.height) (hw : 0 < u.width) (c : Coord)
    (hr : c.row < u.height) (hc : c.col < u.width) (cur : Cell) (n : Nat)
    (hcur : u.indexCoord? c = some cur) (hn : u.alive_neighbor_count c = some n) :
    ∃ u', u.tick? = some u' ∧
      u'.indexCoord? c = some (
        if cur = Cell.Alive then
          (if n < 2 then Cell.Dead else if n = 2 ∨ n = 3 then Cell.Alive else Cell.Dead)
        else (if n = 3 then Cell.Alive else cur)) := by
  obtain ⟨u', h1, _, _, _, _, h6⟩ := tick?_spec u hu
  refine ⟨u', h1, ?_⟩
  rw [h6 c hr hc]
  unfold Universe.tickCell?
  rw [hcur, hn]
  show some (lifeRule cur n) = _
  rw [lifeRule_cases]

theorem tick_rule_table_witness :
    ∃ u', (Universe.new 1 1).tick? = some u' ∧
      u'.indexCoord? (Coord.mk 0 0) = some (
        if Cell.Dead = Cell.Alive then
          (if (0 : Nat) < 2 then Cell.Dead
            else if (0 : Nat) = 2 ∨ (0 : Nat) = 3 then Cell.Alive else Cell.Dead)
        else (if (0 : Nat) = 3 then Cell.Alive else Cell.Dead)) :=
  tick_rule_table (Universe.new 1 1) ⟨rfl, rfl⟩ (by decide) (by decide) (Coord.mk 0 0)
    (by decide) (by decide) Cell.Dead 0 (by decide) (by decide)

/-- C4: `set_dimensions` gives the grid the new dimensions, keeps the
cell values on the overlap of the old and new coordinate ranges, and
fills every other in-range coordinate of the new grid with `Dead`. -/
theorem set_dimensions_preserves_overlap (u : Universe) (hu : u.Wf) (d : Coord) :
    ∃ u', u.set_dimensions? d = some u' ∧ u'.height = d.row ∧ u'.width = d.col ∧
      (∀ c : Coord, c.row < min u.height d.row → c.col < min u.width d.col →
        u'.indexCoord? c = u.indexCoord? c) ∧
      (∀ c : Coord, c.row < d.row → c.col < d.col →
        ¬(c.row < u.height ∧ c.col < u.width) → u'.indexCoord? c = some Cell.Dead) := by
  obtain ⟨u', h1, h2, h3, _, _, h6, h7⟩ := set_dimensions?_spec u hu d
  exact ⟨u', h1, h2, h3, h6, h7⟩

theorem set_dimensions_preserves_overlap_witness :
    ∃ u', (Universe.mk [Cell.Alive, Cell.Dead] [Cell.Alive, Cell.Dead] 1 2).set_dimensions?
        (Coord.mk 2 1) = some u' ∧
      u'.height = 2 ∧ u'.width = 1 ∧
      (∀ c : Coord, c.row < min 1 2 → c.col < min 2 1 →
        u'.indexCoord? c
          = (Universe.mk [Cell.Alive, Cell.Dead] [Cell.Alive, Cell.Dead] 1 2).indexCoord? c) ∧
      (∀ c : Coord, c.row < 2 → c.col < 1 → ¬(c.row < 1 ∧ c.col < 2) →
        u'.indexCoord? c = some Cell.Dead) :=
  set_dimensions_preserves_overlap
    (Universe.mk [Cell.Alive, Cell.Dead] [Cell.Alive, Cell.Dead] 1 2) ⟨rfl, rfl⟩ (Coord.mk 2 1)

/-! ### Evaluating the wraparound on concrete offsets -/

theorem wrap1_self (n a : Nat) (h : a < n) : wrap1 n a 0 = a := by
  unfold wrap1
  rw [Int.add_zero, Int.emod_eq_of_lt (by omega) (by omega)]
  omega

theorem wrap1_up (n a : Nat) (h : a + 1 < n) : wrap1 n a 1 = a + 1 := by
  unfold wrap1
  rw [Int.emod_eq_of_lt (by omega) (by omega)]
  omega

theorem wrap1_up_top (n a : Nat) (h : a + 1 = n) : wrap1 n a 1 = 0 := by
  unfold wrap1
  have e : (a : Int) + 1 = (n : Int) := by omega
  rw [e, Int.emod_self]
  rfl

theorem wrap1_down (n a : Nat) (h0 : 0 < a) (h : a < n) : wrap1 n a (-1) = a - 1 := by
  unfold wrap1
  rw [Int.emod_eq_of_lt (by omega) (by omega)]
  omega

theorem wrap1_down_zero (n : Nat) (hn : 0 < n) : wrap1 n 0 (-1) = n - 1 := by
  unfold wrap1
  have e : ((0 : Nat) : Int) + (-1) = ((n : Int) - 1) + (n : Int) * (-1) := by ring
  rw [e, Int.add_mul_emod_self_left, Int.emod_eq_of_lt (by omega) (by omega)]
  omega

/-! ### Counting pattern hits among three consecutive wrapped positions -/

theorem countEq2 (n a : Nat) (h5 : 5 ≤ n) (ha : a < n) :
    (([-1, 0, 1] : List Int).countP (fun d => decide (wrap1 n a d = 2)))
      = if a = 1 ∨ a = 2 ∨ a = 3 then 1 else 0 := by
  rcases (show a = 0 ∨ a = 1 ∨ a = 2 ∨ a = 3 ∨ (4 ≤ a ∧ a + 1 < n) ∨ (4 ≤ a ∧ a + 1 = n)
      from by omega) with rfl | rfl | rfl | rfl | ⟨h4, hlt⟩ | ⟨h4, heq⟩
  · simp only [List.countP_cons, List.countP_nil, decide_eq_true_eq]
    rw [wrap1_down_zero n (by omega), wrap1_self n 0 (by omega), wrap1_up n 0 (by omega)]
    split_ifs <;> first | omega | tauto
  · simp only [List.countP_cons, List.countP_nil, decide_eq_true_eq]
    rw [wrap1_down n 1 (by omega) (by omega), wrap1_self n 1 (by omega),
      wrap1_up n 1 (by omega)]
    split_ifs <;> first | omega | tauto
  · simp only [List.countP_cons, List.countP_nil, decide_eq_true_eq]
    rw [wrap1_down n 2 (by omega) (by omega), wrap1_self n 2 (by omega),
      wrap1_up n 2 (by omega)]
    split_ifs <;> first | omega | tauto
  · simp only [List.countP_cons, List.countP_nil, decide_eq_true_eq]
    rw [wrap1_down n 3 (by omega) (by omega), wrap1_self n 3 (by omega),
      wrap1_up n 3 (by omega)]
    split_ifs <;> first | omega | tauto
  · simp only [List.countP_cons, List.countP_nil, decide_eq_true_eq]
    rw [wrap1_down n a (by omega) ha, wrap1_self n a ha, wrap1_up n a hlt]
    split_ifs <;> first | omega | tauto
  · simp only [List.countP_cons, List.countP_nil, decide_eq_true_eq]
    rw [wrap1_down n a (by omega) ha, wrap1_self n a ha, wrap1_up_top n a heq]
    split_ifs <;> first | omega | tauto

set_option maxHeartbeats 1000000 in
theorem countMem123 (n a : Nat) (h5 : 5 ≤ n) (ha : a < n) :
    (([-1, 0, 1] : List Int).countP
        (fun d => decide (wrap1 n a d = 1 ∨ wrap1 n a d = 2 ∨ wrap1 n a d = 3)))
      = if a = 0 then 1 else if a = 1 then 2 else if a = 2 then 3
          else if a = 3 then 2 else if a = 4 then 1 else 0 := by
  rcases (show a = 0 ∨ a = 1 ∨ a = 2 ∨ a = 3 ∨ (4 ≤ a ∧ a + 1 < n) ∨ (4 ≤ a ∧ a + 1 = n)
      from by omega) with rfl | rfl | rfl | rfl | ⟨h4, hlt⟩ | ⟨h4, heq⟩
  · simp only [List.countP_cons, List.countP_nil, decide_eq_true_eq]
    rw [wrap1_down_zero n (by omega), wrap1_self n 0 (by omega), wrap1_up n 0 (by omega)]
    split_ifs <;> first | omega | tauto
  · simp only [List.countP_cons, List.countP_nil, decide_eq_true_eq]
    rw [wrap1_down n 1 (by omega) (by omega), wrap1_self n 1 (by omega),
      wrap1_up n 1 (by omega)]
    split_ifs <;> first | omega | tauto
  · simp only [List.countP_cons, List.countP_nil, decide_eq_true_eq]
    rw [wrap1_down n 2 (by omega) (by omega), wrap1_self n 2 (by omega),
      wrap1_up n 2 (by omega)]
    split_ifs <;> first | omega | tauto
  · simp only [List.countP_cons, List.countP_nil, decide_eq_true_eq]
    rw [wrap1_down n 3 (by omega) (by omega), wrap1_self n 3 (by omega),
      wrap1_up n 3 (by omega)]
    split_ifs <;> first | omega | tauto
  · simp only [List.countP_cons, List.countP_nil, decide_eq_true_eq]
    rw [wrap1_down n a (by omega) ha, wrap1_self n a ha, wrap1_up n a hlt]
    split_ifs <;> first | omega | tauto
  · simp only [List.countP_cons, List.countP_nil, decide_eq_true_eq]
    rw [wrap1_down n a (by omega) ha, wrap1_self n a ha, wrap1_up_top n a heq]
    split_ifs <;> first | omega | tauto

/-! ### Product structure of the neighbor count for rectangular patterns -/

set_option maxHeartbeats 1000000 in
theorem count8_product (r q : Int → Bool) :
    specOffsets.countP (fun d => r d.1 && q d.2)
      = (([-1, 0, 1] : List Int).countP r) * (([-1, 0, 1] : List Int).countP q)
        - (if r 0 && q 0 then 1 else 0) := by
  simp only [specOffsets, List.countP_cons, List.countP_nil]
  cases h1 : r (-1) <;> cases h2 : r 0 <;> cases h3 : r 1 <;>
    cases h4 : q (-1) <;> cases h5 : q 0 <;> cases h6 : q 1 <;>
      simp [h1, h2, h3, h4, h5, h6]

theorem decide_pattern_alive (P : Prop) [Decidable P] :
    decide ((some (if P then Cell.Alive else Cell.Dead) : Option Cell) = some Cell.Alive)
      = decide P := by
  by_cases h : P <;> simp [h]

theorem pattern_count (u : Universe) (hu : u.Wf) (h5h : 5 ≤ u.height) (h5w : 5 ≤ u.width)
    (rowB colB : Nat → Prop) [DecidablePred rowB] [DecidablePred colB]
    (hcells : ∀ c : Coord, c.row < u.height → c.col < u.width →
      u.indexCoord? c = some (if rowB c.row ∧ colB c.col then Cell.Alive else Cell.Dead))
    (y x : Nat) (hy : y < u.height) (hx : x < u.width) :
    specNeighborCount u (Coord.mk y x)
      = (([-1, 0, 1] : List Int).countP (fun dy => decide (rowB (wrap1 u.height y dy))))
        * (([-1, 0, 1] : List Int).countP (fun dx => decide (colB (wrap1 u.width x dx))))
        - (if rowB y ∧ colB x then 1 else 0) := by
  have hcongr : ∀ d ∈ specOffsets,
      (decide (u.indexCoord? (u.wrapCoord (Coord.mk y x) d) = some Cell.Alive) = true)
        ↔ ((fun d : Int × Int => decide (rowB (wrap1 u.height y d.1))
            && decide (colB (wrap1 u.width x d.2))) d = true) := by
    intro d _
    have hr : (u.wrapCoord (Coord.mk y x) d).row < u.height := wrap1_lt _ _ _ (by omega)
    have hc : (u.wrapCoord (Coord.mk y x) d).col < u.width := wrap1_lt _ _ _ (by omega)
    rw [hcells _ hr hc]
    rw [decide_pattern_alive]
    simp [Universe.wrapCoord]
  have hstep : List.countP (fun d : Int × Int =>
        decide (rowB (wrap1 u.height y d.1)) && decide (colB (wrap1 u.width x d.2))) specOffsets
      = (([-1, 0, 1] : List Int).countP (fun dy => decide (rowB (wrap1 u.height y dy))))
        * (([-1, 0, 1] : List Int).countP (fun dx => decide (colB (wrap1 u.width x dx))))
        - (if decide (rowB (wrap1 u.height y 0)) && decide (colB (wrap1 u.width x 0))
            then 1 else 0) :=
    count8_product (fun dy => decide (rowB (wrap1 u.height y dy)))
      (fun dx => decide (colB (wrap1 u.width x dx)))
  unfold specNeighborCount
  rw [List.countP_congr hcongr, hstep]
  congr 1
  rw [wrap1_self _ _ hy, wrap1_self _ _ hx]
  by_cases hP : rowB y ∧ colB x
  · rw [if_pos (by simp [hP.1, hP.2]), if_pos hP]
  · rw [if_neg (by simp only [Bool.and_eq_true, decide_eq_true_eq]; exact hP), if_neg hP]

/-! ### The blinker pattern, one generation at a time -/

set_option maxHeartbeats 2000000 in
theorem blinker_step1 (u : Universe) (hu : u.Wf) (h5h : 5 ≤ u.height) (h5w : 5 ≤ u.width)
    (hcells : ∀ c : Coord, c.row < u.height → c.col < u.width →
      u.indexCoord? c = some (if c.row = 2 ∧ (c.col = 1 ∨ c.col = 2 ∨ c.col = 3)
        then Cell.Alive else Cell.Dead)) :
    ∀ y x, y < u.height → x < u.width →
      u.tickCell? (Coord.mk y x)
        = some (if (y = 1 ∨ y = 2 ∨ y = 3) ∧ x = 2 then Cell.Alive else Cell.Dead) := by
  intro y x hy hx
  have hcur : u.indexCoord? (Coord.mk y x)
      = some (if y = 2 ∧ (x = 1 ∨ x = 2 ∨ x = 3) then Cell.Alive else Cell.Dead) :=
    hcells (Coord.mk y x) hy hx
  rw [tickCell?_eq u hu hy hx hcur]
  congr 1
  rw [pattern_count u hu h5h h5w (fun v => v = 2) (fun v => v = 1 ∨ v = 2 ∨ v = 3)
    hcells y x hy hx]
  rw [countEq2 u.height y h5h hy, countMem123 u.width x h5w hx]
  split_ifs <;> first | omega | decide

set_option maxHeartbeats 2000000 in
theorem blinker_step2 (u : Universe) (hu : u.Wf) (h5h : 5 ≤ u.height) (h5w : 5 ≤ u.width)
    (hcells : ∀ c : Coord, c.row < u.height → c.col < u.width →
      u.indexCoord? c = some (if (c.row = 1 ∨ c.row = 2 ∨ c.row = 3) ∧ c.col = 2
        then Cell.Alive else Cell.Dead)) :
    ∀ y x, y < u.height → x < u.width →
      u.tickCell? (Coord.mk y x)
        = some (if y = 2 ∧ (x = 1 ∨ x = 2 ∨ x = 3) then Cell.Alive else Cell.Dead) := by
  intro y x hy hx
  have hcur : u.indexCoord? (Coord.mk y x)
      = some (if (y = 1 ∨ y = 2 ∨ y = 3) ∧ x = 2 then Cell.Alive else Cell.Dead) :=
    hcells (Coord.mk y x) hy hx
  rw [tickCell?_eq u hu hy hx hcur]
  congr 1
  rw [pattern_count u hu h5h h5w (fun v => v = 1 ∨ v = 2 ∨ v = 3) (fun v => v = 2)
    hcells y x hy hx]
  rw [countMem123 u.height y h5h hy, countEq2 u.width x h5w hx]
  split_ifs <;> first | omega | decide

/-- C7: on any well-formed grid at least 5×5 holding exactly the
horizontal triple `(2,1),(2,2),(2,3)` Alive, one `tick` yields exactly
the vertical triple `(1,2),(2,2),(3,2)`, and a second `tick` restores
exactly the original horizontal triple (period-2 oscillation). -/
theorem blinker_oscillation (u : Universe) (hu : u.Wf)
    (h5h : 5 ≤ u.height) (h5w : 5 ≤ u.width)
    (hcells : ∀ c : Coord, c.row < u.height → c.col < u.width →
      u.indexCoord? c = some (if c.row = 2 ∧ (c.col = 1 ∨ c.col = 2 ∨ c.col = 3)
        then Cell.Alive else Cell.Dead)) :
    ∃ u' u'', u.tick? = some u' ∧
      (∀ c : Coord, c.row < u'.height → c.col < u'.width →
        u'.indexCoord? c = some (if (c.row = 1 ∨ c.row = 2 ∨ c.row = 3) ∧ c.col = 2
          then Cell.Alive else Cell.Dead)) ∧
      u'.tick? = some u'' ∧
      (∀ c : Coord, c.row < u''.height → c.col < u''.width →
        u''.indexCoord? c = some (if c.row = 2 ∧ (c.col = 1 ∨ c.col = 2 ∨ c.col = 3)
          then Cell.Alive else Cell.Dead)) := by
  obtain ⟨u', h1, hh', hw', _, _, hcells1⟩ := tick?_spec u hu
  have hu' : u'.Wf := tick?_wf u hu h1
  have hcellsV : ∀ c : Coord, c.row < u'.height → c.col < u'.width →
      u'.indexCoord? c = some (if (c.row = 1 ∨ c.row = 2 ∨ c.row = 3) ∧ c.col = 2
        then Cell.Alive else Cell.Dead) := by
    intro c hr hc
    rw [hh'] at hr
    rw [hw'] at hc
    rw [hcells1 c hr hc]
    have := blinker_step1 u hu h5h h5w hcells c.row c.col hr hc
    cases c
    exact this
  obtain ⟨u'', h2, hh'', hw'', _, _, hcells2⟩ := tick?_spec u' hu'
  have h5h' : 5 ≤ u'.height := by rw [hh']; exact h5h
  have h5w' : 5 ≤ u'.width := by rw [hw']; exact h5w
  have hcellsH : ∀ c : Coord, c.row < u''.height → c.col < u''.width →
      u''.indexCoord? c = some (if c.row = 2 ∧ (c.col = 1 ∨ c.col = 2 ∨ c.col = 3)
        then Cell.Alive else Cell.Dead) := by
    intro c hr hc
    rw [hh''] at hr
    rw [hw''] at hc
    rw [hcells2 c hr hc]
    have := blinker_step2 u' hu' h5h' h5w' hcellsV c.row c.col hr hc
    cases c
    exact this
  exact ⟨u', u'', h1, hcellsV, h2, hcellsH⟩

theorem blinker_oscillation_witness :
    ∃ u' u'', blinker5.tick? = some u' ∧
      (∀ c : Coord, c.row < u'.height → c.col < u'.width →
        u'.indexCoord? c = some (if (c.row = 1 ∨ c.row = 2 ∨ c.row = 3) ∧ c.col = 2
          then Cell.Alive else Cell.Dead)) ∧
      u'.tick? = some u'' ∧
      (∀ c : Coord, c.row < u''.height → c.col < u''.width →
        u''.indexCoord? c = some (if c.row = 2 ∧ (c.col = 1 ∨ c.col = 2 ∨ c.col = 3)
          then Cell.Alive else Cell.Dead)) :=
  blinker_oscillation blinker5 ⟨by decide, by decide⟩ (by decide) (by decide)
    (by
      have hb : ∀ y, y < 5 → ∀ x, x < 5 → blinker5.indexCoord? (Coord.mk y x)
          = some (if y = 2 ∧ (x = 1 ∨ x = 2 ∨ x = 3) then Cell.Alive else Cell.Dead) := by
        decide
      intro c hr hc
      have hyx := hb c.row hr c.col hc
      cases c
      exact hyx)
